import Mathlib

/-
Verification of the slab-design engine (graduation_project).

Shallow embedding notes:
- Python floats are embedded as exact rationals (ℚ); `math.pi` is embedded
  as the exact rational value of the IEEE-754 double that Python uses.
- Python strings are embedded as Lean `String`; `str.strip().upper()` and
  the `"pat" in s` substring test are modelled on the underlying character
  lists.
- `constant.py` is imported by the sources but is not part of the provided
  source tree; the constants it defines (PHI_GRID, S_GRID, K_TABLE_ROWS)
  are modelled from the spec where needed, as marked in their doc comments.
  CONC_NODES is forced to [25,30,35,40,45,50] by the K_map dictionary keys
  in utils.K_row_concrete_value, which is part of the sources.
-/

set_option linter.unusedVariables false

-- ============================================================
-- String modelling (strip().upper() and substring membership)
-- ============================================================

/-- Does the character list start with the pattern list. -/
def listStartsWith : List Char → List Char → Bool
  | _, [] => true
  | [], _ :: _ => false
  | c :: cs, p :: ps => c == p && listStartsWith cs ps

/-- Does the character list contain the pattern list as a contiguous run
(model of the Python `pat in s` test). -/
def listHasSub : List Char → List Char → Bool
  | [], pat => pat.isEmpty
  | l@(_ :: rest), pat => listStartsWith l pat || listHasSub rest pat

/-- Model of Python `s.strip()` on the character list: drop whitespace from
both ends. -/
def trimChars (l : List Char) : List Char :=
  ((l.dropWhile Char.isWhitespace).reverse.dropWhile Char.isWhitespace).reverse

/-- Model of Python `s.strip().upper()` followed by `pat in s`. -/
def strHasSub (s pat : String) : Bool :=
  listHasSub ((trimChars s.data).map Char.toUpper) pat.data

-- ============================================================
-- Data model (models.py)
-- ============================================================

/-- models.BarChoice: a selected (diameter, spacing) pair with the provided
area per metre width and the provided/required ratio. -/
structure BarChoice where
  phi : ℕ
  s_cm : ℚ
  As_prov_mm2_per_m : ℚ
  As_prov_cm2_per_m : ℚ
  ratio : ℚ
deriving DecidableEq, Repr

/-- models.MainRebarLayout: straight + bent (pilye) bar layers. -/
structure MainRebarLayout where
  straight : BarChoice
  pilye : BarChoice
  As_total_prov_mm2_per_m : ℚ
  As_total_req_mm2_per_m : ℚ
  ratio : ℚ
deriving DecidableEq, Repr

/-- models.ThicknessCheck (the explanatory display string is omitted: it is
pure formatting). -/
structure ThicknessCheck where
  h_min_mm : ℚ
  ok : Bool
deriving DecidableEq, Repr

/-- The slab_type string computed in design.compute ("one_way"/"two_way"). -/
inductive SlabType where
  | one_way : SlabType
  | two_way : SlabType
deriving DecidableEq, Repr

/-- models.InputData (the persistence identifier is omitted). -/
structure InputData where
  lx : ℚ
  ly : ℚ
  beam_w_left_x : ℚ
  beam_w_right_x : ℚ
  beam_w_left_y : ℚ
  beam_w_right_y : ℚ
  h_mm : ℚ
  cover_mm : ℚ
  concrete : String
  steel : String
  g_additional : ℚ
  q_live : ℚ
  slab_case : ℕ

-- ============================================================
-- Constants (constant.py; modelled where missing from src)
-- ============================================================

/-- Exact rational value of the IEEE-754 double `math.pi` used by the
source. -/
def piF : ℚ := 884279719003555 / 281474976710656

/-- Modelled from the spec: constant.py is absent from src; BarDiameterSet is
"the ordered set of allowed nominal bar diameters (mm), ascending".
Standard nominal diameters are used; the set contains 6 (needed by
choose_distribution_rebar) and 8 (the main-bar minimum). -/
def PHI_GRID : List ℕ := [6, 8, 10, 12, 14, 16, 20]

/-- Modelled from the spec: constant.py is absent from src; SpacingSet is
"the ordered set of allowed center-to-center spacings (cm), ascending".
Spacings from the default 70 mm minimum up to the 300 mm distribution
maximum, in 1 cm steps. -/
def S_GRID : List ℚ :=
  [7, 8, 9, 10, 11, 12, 13, 14, 15, 16, 17, 18, 19, 20, 21, 22,
   23, 24, 25, 26, 27, 28, 29, 30]

/-- One row of the K/ks design chart (K_TABLE_ROWS element): the
utilization breakpoint (row[0]), the capacity value per concrete grade
(row[1]..row[6]) and the reinforcement coefficients for the two steel
groups (row[7] = S420, row[8] = B500). -/
structure KRow where
  Kb : ℚ
  K25 : ℚ
  K30 : ℚ
  K35 : ℚ
  K40 : ℚ
  K45 : ℚ
  K50 : ℚ
  ks420 : ℚ
  ks500 : ℚ
deriving DecidableEq, Repr

/-- Modelled from the spec: constant.py is absent from src; rows of the
design chart are ordered by descending utilization, every concrete-grade
column is strictly decreasing down the rows, and the reinforcement
coefficients ascend down the rows ("descending-utilization /
ascending-coefficient structure"). -/
def krow1 : KRow := ⟨1200, 1200, 1150, 1100, 1050, 1000, 950, 240, 200⟩

/-- Modelled from the spec: second chart row, see krow1. -/
def krow2 : KRow := ⟨900, 900, 860, 820, 780, 740, 700, 260, 217⟩

/-- Modelled from the spec: third chart row, see krow1. -/
def krow3 : KRow := ⟨600, 600, 570, 540, 510, 480, 450, 300, 250⟩

/-- Modelled from the spec: last chart row, see krow1. -/
def krow4 : KRow := ⟨300, 300, 280, 260, 240, 220, 200, 380, 317⟩

/-- Modelled from the spec: the design-chart row sequence K_TABLE_ROWS. -/
def K_TABLE_ROWS : List KRow := [krow1, krow2, krow3, krow4]

/-- The concrete-grade nodes of the chart.  These are forced by the source:
K_row_concrete_value's K_map dictionary is keyed exactly by 25, 30, 35,
40, 45 and 50. -/
def CONC_NODES : List ℚ := [25, 30, 35, 40, 45, 50]

-- ============================================================
-- utils.py
-- ============================================================

/-- utils.lerp. -/
def lerp (a b t : ℚ) : ℚ := a + (b - a) * t

/-- utils.calculate_net_span: Lsn = max(L - (w_left + w_right)/2000, 0.1)
(gross span in metres, beam widths in mm). -/
def calculate_net_span (L_gross beam_w_left_mm beam_w_right_mm : ℚ) : ℚ :=
  max (L_gross - (beam_w_left_mm + beam_w_right_mm) / 2000) (1/10)

/-- utils.calculate_loads: returns
(g_self_weight, g_total, q_live, pd_factored). -/
def calculate_loads (h_mm g_additional q_live : ℚ) : ℚ × ℚ × ℚ × ℚ :=
  let g_self_weight := (h_mm / 1000) * 25
  let g_total := g_self_weight + g_additional
  let pd_factored := (14/10) * g_total + (16/10) * q_live
  (g_self_weight, g_total, q_live, pd_factored)

/-- utils.as_cm2_per_m: provided steel area (cm²/m) of bars of diameter
phi_mm at spacing s_cm. -/
def as_cm2_per_m (phi_mm s_cm : ℚ) : ℚ :=
  let s_mm := s_cm * 10
  let a_bar := piF * phi_mm ^ 2 / 4
  let as_mm2_per_m := a_bar * 1000 / s_mm
  as_mm2_per_m / 100

/-- utils.AS_GRID: precomputed (spacing × diameter) area table. -/
def AS_GRID : List (List ℚ) :=
  S_GRID.map (fun s => PHI_GRID.map (fun phi => as_cm2_per_m (phi : ℚ) s))

/-- utils.steel_group: grade name containing "500" selects B500, else
S420. -/
def steel_group (name : String) : String :=
  if strHasSub name "500" then "B500" else "S420"

/-- utils.rho_min_oneway: 0.003 for a grade name containing "220", else
0.002. -/
def rho_min_oneway (steel : String) : ℚ :=
  if strHasSub steel "220" then 3/1000 else 2/1000

/-- utils.K_row_concrete_value: interpolate a chart row's capacity value at
the given concrete grade, clamped at the 25 and 50 grade columns; the
generic bracket search over CONC_NODES = [25,30,35,40,45,50] is written
out per bracket. -/
def K_row_concrete_value (row : KRow) (fck : ℚ) : ℚ :=
  if fck ≤ 25 then row.K25
  else if 50 ≤ fck then row.K50
  else if fck ≤ 30 then lerp row.K25 row.K30 ((fck - 25) / 5)
  else if fck ≤ 35 then lerp row.K30 row.K35 ((fck - 30) / 5)
  else if fck ≤ 40 then lerp row.K35 row.K40 ((fck - 35) / 5)
  else if fck ≤ 45 then lerp row.K40 row.K45 ((fck - 40) / 5)
  else lerp row.K45 row.K50 ((fck - 45) / 5)

/-- Selection of a chart row's reinforcement coefficient by steel group:
`r[7] if grp == "S420" else r[8]`. -/
def ksSel (r : KRow) (grp : String) : ℚ :=
  if grp = "S420" then r.ks420 else r.ks500

/-- Core of utils.ks_from_Kcalc for a four-row chart: clamp above the first
row's value and below the last row's, otherwise find the bracketing pair of
rows (first row index whose value is ≤ Kcalc) and interpolate the
reinforcement coefficient.  This is the source's first-index search written
out for the four modelled rows (a1 > a2 > a3 > a4 are the per-row capacity
values at the given grade, k1..k4 the matching coefficients). -/
def ksCore (a1 a2 a3 a4 k1 k2 k3 k4 K : ℚ) : ℚ :=
  if a1 ≤ K then k1
  else if K ≤ a4 then k4
  else if a2 ≤ K then lerp k1 k2 ((K - a1) / (a2 - a1))
  else if a3 ≤ K then lerp k2 k3 ((K - a2) / (a3 - a2))
  else lerp k3 k4 ((K - a3) / (a4 - a3))

/-- utils.ks_from_Kcalc over the modelled K_TABLE_ROWS. -/
def ks_from_Kcalc (Kcalc_x1e5 fck : ℚ) (steel : String) : ℚ :=
  let grp := steel_group steel
  ksCore (K_row_concrete_value krow1 fck) (K_row_concrete_value krow2 fck)
    (K_row_concrete_value krow3 fck) (K_row_concrete_value krow4 fck)
    (ksSel krow1 grp) (ksSel krow2 grp) (ksSel krow3 grp) (ksSel krow4 grp)
    Kcalc_x1e5

/-- Spacing loop of utils.best_spacing_for_phi: walk S_GRID in order, skip
spacings outside [s_min_cm, s_max_cm], skip areas below the required area
minus the 1e-12 tolerance, keep the candidate with the strictly smallest
ratio (the source reads AS_GRID[si][pj], which equals
as_cm2_per_m phi s by construction of AS_GRID). -/
def best_spacing_loop (As_req_cm2 s_min_cm s_max_cm : ℚ) (phi : ℕ) :
    List ℚ → Option BarChoice → Option BarChoice
  | [], best => best
  | s :: rest, best =>
    if s < s_min_cm ∨ s_max_cm < s then
      best_spacing_loop As_req_cm2 s_min_cm s_max_cm phi rest best
    else
      let As_cm2 := as_cm2_per_m (phi : ℚ) s
      if As_cm2 + 1/10^12 < As_req_cm2 then
        best_spacing_loop As_req_cm2 s_min_cm s_max_cm phi rest best
      else
        let cand : BarChoice :=
          ⟨phi, s, As_cm2 * 100, As_cm2, As_cm2 / As_req_cm2⟩
        match best with
        | none => best_spacing_loop As_req_cm2 s_min_cm s_max_cm phi rest (some cand)
        | some b =>
          if cand.ratio < b.ratio then
            best_spacing_loop As_req_cm2 s_min_cm s_max_cm phi rest (some cand)
          else
            best_spacing_loop As_req_cm2 s_min_cm s_max_cm phi rest (some b)

/-- utils.best_spacing_for_phi. -/
def best_spacing_for_phi (As_req_mm2_per_m : ℚ) (phi : ℕ)
    (s_max_mm s_min_mm : ℚ) : Option BarChoice :=
  if As_req_mm2_per_m ≤ 1/10^12 then some ⟨phi, 0, 0, 0, 0⟩
  else if phi ∉ PHI_GRID then none
  else
    best_spacing_loop (As_req_mm2_per_m / 100) (s_min_mm / 10) (s_max_mm / 10)
      phi S_GRID none

/-- Scan step of utils.interp_piecewise: given the previous point and the
remaining ascending points, return the lerp on the first bracket whose
right endpoint is ≥ x. -/
def interpScan : ℚ × ℚ → List (ℚ × ℚ) → ℚ → ℚ
  | p, [], _ => p.2
  | p, q :: l, x =>
    if x ≤ q.1 then lerp p.2 q.2 ((x - p.1) / (q.1 - p.1))
    else interpScan q l x

/-- utils.interp_piecewise.  The Python dict argument is modelled as its
association list sorted by key (the source sorts the dict keys, which are
unique); the value is 0 on the empty list, where the source would raise. -/
def interp_piecewise : List (ℚ × ℚ) → ℚ → ℚ
  | [], _ => 0
  | p :: l, x =>
    let lastP := l.getLastD p
    if x ≤ p.1 then p.2
    else if lastP.1 ≤ x then lastP.2
    else interpScan p l x

-- ============================================================
-- core.py
-- ============================================================

/-- Diameter loop of core.choose_single_layer_rebar: walk PHI_GRID in
order, skip diameters below phi_min, skip infeasible diameters, keep the
candidate with the strictly smallest ratio. -/
def choose_single_layer_loop (As_req s_max_mm s_min_mm : ℚ) (phi_min : ℕ) :
    List ℕ → Option BarChoice → Option BarChoice
  | [], best => best
  | phi :: rest, best =>
    if phi < phi_min then
      choose_single_layer_loop As_req s_max_mm s_min_mm phi_min rest best
    else
      match best_spacing_for_phi As_req phi s_max_mm s_min_mm with
      | none => choose_single_layer_loop As_req s_max_mm s_min_mm phi_min rest best
      | some cand =>
        match best with
        | none => choose_single_layer_loop As_req s_max_mm s_min_mm phi_min rest (some cand)
        | some b =>
          if cand.ratio < b.ratio then
            choose_single_layer_loop As_req s_max_mm s_min_mm phi_min rest (some cand)
          else
            choose_single_layer_loop As_req s_max_mm s_min_mm phi_min rest (some b)

/-- core.choose_single_layer_rebar. -/
def choose_single_layer_rebar (As_req_mm2_per_m s_max_mm s_min_mm : ℚ)
    (phi_min : ℕ) : BarChoice :=
  if As_req_mm2_per_m ≤ 1/10^12 then ⟨0, 0, 0, 0, 0⟩
  else
    match choose_single_layer_loop As_req_mm2_per_m s_max_mm s_min_mm phi_min
        PHI_GRID none with
    | some b => b
    | none => ⟨0, 0, 0, 0, 0⟩

/-- core.choose_distribution_rebar: fixed policy wrapper. -/
def choose_distribution_rebar (As_req_mm2_per_m : ℚ) : BarChoice :=
  choose_single_layer_rebar As_req_mm2_per_m 300 70 6

/-- Diameter loop of core.choose_main_rebar_half_half_same_phi: the source
computes `straight` and `pilye` by two separate calls with identical
arguments, then keeps the diameter with the smallest combined ratio. -/
def choose_main_loop (As_req As_half s_max_main_mm s_min_main_mm : ℚ)
    (phi_min_main : ℕ) :
    List ℕ → Option MainRebarLayout → Option MainRebarLayout
  | [], best => best
  | phi :: rest, best =>
    if phi < phi_min_main then
      choose_main_loop As_req As_half s_max_main_mm s_min_main_mm phi_min_main rest best
    else
      let straight := best_spacing_for_phi As_half phi s_max_main_mm s_min_main_mm
      let pilye := best_spacing_for_phi As_half phi s_max_main_mm s_min_main_mm
      match straight, pilye with
      | some st, some py =>
        let As_prov := st.As_prov_mm2_per_m + py.As_prov_mm2_per_m
        let cand : MainRebarLayout := ⟨st, py, As_prov, As_req, As_prov / As_req⟩
        (match best with
         | none =>
            choose_main_loop As_req As_half s_max_main_mm s_min_main_mm phi_min_main rest (some cand)
         | some b =>
            if cand.ratio < b.ratio then
              choose_main_loop As_req As_half s_max_main_mm s_min_main_mm phi_min_main rest (some cand)
            else
              choose_main_loop As_req As_half s_max_main_mm s_min_main_mm phi_min_main rest (some b))
      | _, _ =>
        choose_main_loop As_req As_half s_max_main_mm s_min_main_mm phi_min_main rest best

/-- core.choose_main_rebar_half_half_same_phi. -/
def choose_main_rebar_half_half_same_phi (As_req_mm2_per_m s_max_main_mm s_min_main_mm : ℚ)
    (phi_min_main : ℕ) : MainRebarLayout :=
  let z : BarChoice := ⟨0, 0, 0, 0, 0⟩
  if As_req_mm2_per_m ≤ 1/10^12 then ⟨z, z, 0, 0, 0⟩
  else
    match choose_main_loop As_req_mm2_per_m (As_req_mm2_per_m / 2)
        s_max_main_mm s_min_main_mm phi_min_main PHI_GRID none with
    | some b => b
    | none => ⟨z, z, 0, As_req_mm2_per_m, 0⟩

-- ============================================================
-- design.py
-- ============================================================

/-- Net span in the X direction, design.compute step 1. -/
def compute_Lsn_x (d : InputData) : ℚ :=
  calculate_net_span d.lx d.beam_w_left_x d.beam_w_right_x

/-- Net span in the Y direction, design.compute step 1. -/
def compute_Lsn_y (d : InputData) : ℚ :=
  calculate_net_span d.ly d.beam_w_left_y d.beam_w_right_y

/-- Aspect ratio m of design.compute step 2:
m = L_long_net / L_short_net when L_short_net > 0.01, else 1. -/
def compute_m (d : InputData) : ℚ :=
  let L_short_net := min (compute_Lsn_x d) (compute_Lsn_y d)
  let L_long_net := max (compute_Lsn_x d) (compute_Lsn_y d)
  if 1/100 < L_short_net then L_long_net / L_short_net else 1

/-- Slab classification of design.compute step 2:
one_way when m > 2.0, else two_way. -/
def compute_slab_type (d : InputData) : SlabType :=
  if 2 < compute_m d then SlabType.one_way else SlabType.two_way

/-- design.thickness_check_oneway: h_min = max(max(Lsn,0.10)·1000/30, 80),
pass when h_mm ≥ h_min. -/
def thickness_check_oneway (Lsn h_mm : ℚ) : ThicknessCheck :=
  let ln := max Lsn (1/10)
  let h_min := max (ln * 1000 / 30) 80
  ⟨h_min, decide (h_min ≤ h_mm)⟩

/-- The bottom (positive-moment) minimum-reinforcement fragment of
design.compute_twoway (lines 271-289), taking the moment-derived areas
Asx_pos_M and Asy_pos_M as inputs: clamp each direction at
rho_min·b·d, then rescale both if the (post-clamp) sum is below
0.0035·b·d and above the 1e-12 zero tolerance.  Returns
(Asx_pos_req, Asy_pos_req). -/
def compute_twoway_bottom_req (Asx_pos_M Asy_pos_M b_mm d_mm : ℚ)
    (steel : String) : ℚ × ℚ :=
  let rho_min_single := rho_min_oneway steel
  let As_min_single := rho_min_single * b_mm * d_mm
  let Asx_pos_req := max Asx_pos_M As_min_single
  let Asy_pos_req := max Asy_pos_M As_min_single
  let As_min_total := (35/10000) * b_mm * d_mm
  let As_sum := Asx_pos_req + Asy_pos_req
  if As_sum < As_min_total ∧ 1/10^12 < As_sum then
    let scale := As_min_total / As_sum
    (Asx_pos_req * scale, Asy_pos_req * scale)
  else
    (Asx_pos_req, Asy_pos_req)

-- ============================================================
-- Helper lemmas
-- ============================================================

/-- Both components of every layout produced by the diameter loop of
choose_main_rebar_half_half_same_phi are the same BarChoice, since the
straight and pilye searches run with identical arguments. -/
lemma choose_main_loop_st_eq_py (Ar Ah smax smin : ℚ) (pmin : ℕ) :
    ∀ (l : List ℕ) (acc : Option MainRebarLayout),
      (∀ b, acc = some b → b.straight = b.pilye) →
      ∀ c, choose_main_loop Ar Ah smax smin pmin l acc = some c →
        c.straight = c.pilye := by
  intro l
  induction l with
  | nil =>
    intro acc hacc c hc
    simp only [choose_main_loop] at hc
    exact hacc c hc
  | cons phi rest ih =>
    intro acc hacc c hc
    simp only [choose_main_loop] at hc
    split at hc
    · exact ih acc hacc c hc
    · split at hc
      case _ st py h1 h2 =>
        have hst : st = py := by rw [h1] at h2; exact Option.some_injective _ h2
        subst hst
        split at hc
        · refine ih _ ?_ c hc
          intro b hb
          cases hb
          rfl
        · split at hc
          · refine ih _ ?_ c hc
            intro b hb
            cases hb
            rfl
          · exact ih _ hacc c hc
      case _ o1 o2 hno =>
        exact ih acc hacc c hc

/-- The straight and pilye components of
choose_main_rebar_half_half_same_phi always coincide. -/
lemma choose_main_st_eq_py (Ar smax smin : ℚ) (pmin : ℕ) :
    (choose_main_rebar_half_half_same_phi Ar smax smin pmin).straight =
      (choose_main_rebar_half_half_same_phi Ar smax smin pmin).pilye := by
  unfold choose_main_rebar_half_half_same_phi
  split
  · rfl
  · split
    case _ b hb => exact choose_main_loop_st_eq_py _ _ _ _ _ _ _ (by intro b hb; cases hb) _ hb
    case _ hb => rfl

-- ============================================================
-- Claim C10: net span deduction
-- ============================================================

/-- C10: the computed net span equals gross span minus half the sum of the
adjoining beam widths (converted from mm to m), floored at 0.1 m; in
particular gross span 5.0 with beam widths 300 and 300 gives 4.7. -/
theorem net_span_spec (L wl wr : ℚ) :
    calculate_net_span L wl wr = max (L - (wl / 1000 + wr / 1000) / 2) (1/10) ∧
    calculate_net_span 5 300 300 = 47/10 := by
  constructor
  · have h : L - (wl + wr) / 2000 = L - (wl / 1000 + wr / 1000) / 2 := by ring
    rw [calculate_net_span, h]
  · rw [calculate_net_span]
    norm_num

-- ============================================================
-- Claim C9: one-way thickness check
-- ============================================================

/-- C9: the one-way thickness check computes
h_min = max(Lsn·1000/30, 80 mm) and passes exactly when h ≥ h_min; a net
span of 6.0 m gives h_min = 200 mm. -/
theorem thickness_oneway_spec (Lsn h_mm : ℚ) :
    (thickness_check_oneway Lsn h_mm).h_min_mm = max (Lsn * 1000 / 30) 80 ∧
    ((thickness_check_oneway Lsn h_mm).ok = true ↔
      max (Lsn * 1000 / 30) 80 ≤ h_mm) ∧
    (thickness_check_oneway 6 h_mm).h_min_mm = 200 := by
  have hmin : max (max Lsn (1/10) * 1000 / 30) 80 = max (Lsn * 1000 / 30) 80 := by
    rcases le_total Lsn (1/10) with h | h
    · rw [max_eq_right h]
      rw [max_eq_right (by norm_num : (1/10 : ℚ) * 1000 / 30 ≤ 80)]
      rw [max_eq_right (by linarith : Lsn * 1000 / 30 ≤ 80)]
    · rw [max_eq_left h]
  refine ⟨hmin, ?_, ?_⟩
  · rw [show (thickness_check_oneway Lsn h_mm).ok =
        decide (max (max Lsn (1/10) * 1000 / 30) 80 ≤ h_mm) from rfl, hmin]
    exact decide_eq_true_iff
  · show max (max 6 (1/10) * 1000 / 30) 80 = 200
    norm_num

-- ============================================================
-- Claim C7: slab classification
-- ============================================================

/-- C7: the slab is classified one-way exactly when the aspect ratio
m = longer net span / shorter net span is strictly greater than 2, and
two-way otherwise; m = 2 classifies two-way. -/
theorem slab_classification (d : InputData) :
    (compute_slab_type d = SlabType.one_way ↔ 2 < compute_m d) ∧
    compute_m d =
      max (compute_Lsn_x d) (compute_Lsn_y d) /
        min (compute_Lsn_x d) (compute_Lsn_y d) ∧
    (compute_m d = 2 → compute_slab_type d = SlabType.two_way) := by
  have hx : (1/10 : ℚ) ≤ compute_Lsn_x d := le_max_right _ _
  have hy : (1/10 : ℚ) ≤ compute_Lsn_y d := le_max_right _ _
  have hpos : (1/100 : ℚ) < min (compute_Lsn_x d) (compute_Lsn_y d) := by
    rcases min_le_iff.mp (le_refl (min (compute_Lsn_x d) (compute_Lsn_y d))) with h | h
    all_goals
      have := le_min hx hy
      linarith
  have hm : compute_m d =
      max (compute_Lsn_x d) (compute_Lsn_y d) /
        min (compute_Lsn_x d) (compute_Lsn_y d) := by
    unfold compute_m
    rw [if_pos hpos]
  refine ⟨?_, hm, ?_⟩
  · unfold compute_slab_type
    split_ifs with h2
    · simp [h2]
    · simp [h2]
  · intro h2
    unfold compute_slab_type
    rw [if_neg (by rw [h2]; exact lt_irrefl 2)]

-- ============================================================
-- Claim C1: two-way combined-direction minimum
-- ============================================================

/-- The rescaling branch of compute_twoway_bottom_req is dead code: each
clamped value is at least rho_min·b·d with rho_min ≥ 0.002, so for
nonnegative b and d the post-clamp sum is at least 0.004·b·d ≥ 0.0035·b·d
and the result is the pair of per-direction clamped values. -/
lemma compute_twoway_bottom_req_noscale (AsxM AsyM b d : ℚ) (steel : String)
    (hb : 0 ≤ b) (hd : 0 ≤ d) :
    compute_twoway_bottom_req AsxM AsyM b d steel =
      (max AsxM (rho_min_oneway steel * b * d),
       max AsyM (rho_min_oneway steel * b * d)) := by
  have hr : 2/1000 ≤ rho_min_oneway steel := by
    unfold rho_min_oneway
    split_ifs <;> norm_num
  have hbd : (0:ℚ) ≤ b * d := mul_nonneg hb hd
  simp only [compute_twoway_bottom_req]
  split_ifs with h
  · exfalso
    obtain ⟨h1, -⟩ := h
    have m1 : rho_min_oneway steel * b * d ≤
        max AsxM (rho_min_oneway steel * b * d) := le_max_right _ _
    have m2 : rho_min_oneway steel * b * d ≤
        max AsyM (rho_min_oneway steel * b * d) := le_max_right _ _
    nlinarith [mul_le_mul_of_nonneg_right hr hbd]
  · rfl

/-- C1 counterexample: with both moment-derived areas zero (pre-clamp sum
numerically zero), b = 1000 mm and d = 100 mm, the code does NOT split the
combined minimum 0.0035·b·d = 350 equally (175 each): it returns the
per-direction clamped values (200, 200). -/
theorem twoway_combined_min_counterexample :
    compute_twoway_bottom_req 0 0 1000 100 "S420" ≠
      ((35/10000 : ℚ) * 1000 * 100 / 2, (35/10000 : ℚ) * 1000 * 100 / 2) := by
  rw [compute_twoway_bottom_req_noscale 0 0 1000 100 "S420" (by norm_num) (by norm_num)]
  have hrho : rho_min_oneway "S420" = 2/1000 := by
    rw [rho_min_oneway, if_neg (by decide)]
  rw [hrho, show ((2:ℚ)/1000 * 1000 * 100) = 200 by norm_num,
    max_eq_right (by norm_num : (0:ℚ) ≤ 200)]
  rw [Ne, Prod.ext_iff]
  rintro ⟨h1, -⟩
  norm_num at h1

/-- C1 amended: the combined-direction minimum is tested against the
post-clamp sum Asx_pos_req + Asy_pos_req (after the per-direction minimum
clamp), and only when that sum exceeds the 1e-12 zero tolerance; since each
clamped value is at least 0.002·b·d, the rescale never fires and the result
is exactly the pair of per-direction clamped values — there is no
equal-split branch for a zero sum. -/
theorem twoway_combined_min_amended (AsxM AsyM b d : ℚ) (steel : String)
    (hb : 0 ≤ b) (hd : 0 ≤ d) :
    compute_twoway_bottom_req AsxM AsyM b d steel =
      (max AsxM (rho_min_oneway steel * b * d),
       max AsyM (rho_min_oneway steel * b * d)) :=
  compute_twoway_bottom_req_noscale AsxM AsyM b d steel hb hd

/-- C1 amended, witness: at AsxM = 400, AsyM = 100, b = 1000, d = 130,
steel S420 the hypotheses hold and the clamped pair is returned. -/
theorem twoway_combined_min_amended_witness :
    (0:ℚ) ≤ 1000 ∧ (0:ℚ) ≤ 130 ∧
    compute_twoway_bottom_req 400 100 1000 130 "S420" =
      (max 400 (rho_min_oneway "S420" * 1000 * 130),
       max 100 (rho_min_oneway "S420" * 1000 * 130)) :=
  ⟨by norm_num, by norm_num,
    twoway_combined_min_amended 400 100 1000 130 "S420" (by norm_num) (by norm_num)⟩

-- ============================================================
-- Claims C4 / C5: half-half main rebar layout
-- ============================================================

/-- C4: whenever choose_main_rebar_half_half_same_phi returns a
non-sentinel layout, its straight and pilye components are identical
BarChoices (same diameter, spacing and provided area), because both
half-area searches run with exactly the same arguments. -/
theorem choose_main_components_identical (Ar smax smin : ℚ) (pmin : ℕ)
    (h : (choose_main_rebar_half_half_same_phi Ar smax smin pmin).straight.phi ≠ 0) :
    (choose_main_rebar_half_half_same_phi Ar smax smin pmin).straight =
      (choose_main_rebar_half_half_same_phi Ar smax smin pmin).pilye :=
  choose_main_st_eq_py Ar smax smin pmin

set_option maxHeartbeats 4000000 in
/-- C4 witness: at required area 500 mm²/m with spacing fixed to 200 mm
and minimum diameter 8, the returned layout is non-sentinel and its two
components coincide. -/
theorem choose_main_components_identical_witness :
    (choose_main_rebar_half_half_same_phi 500 200 200 8).straight.phi ≠ 0 ∧
    (choose_main_rebar_half_half_same_phi 500 200 200 8).straight =
      (choose_main_rebar_half_half_same_phi 500 200 200 8).pilye := by
  have hh : (choose_main_rebar_half_half_same_phi 500 200 200 8).straight.phi ≠ 0 := by
    norm_num [choose_main_rebar_half_half_same_phi, choose_main_loop,
      best_spacing_for_phi, best_spacing_loop, as_cm2_per_m, piF, PHI_GRID, S_GRID]
  exact ⟨hh, choose_main_components_identical 500 200 200 8 hh⟩

/-- C5: choose_main_rebar_half_half_same_phi always returns two BarChoices
of equal diameter. -/
theorem choose_main_equal_diameter (Ar smax smin : ℚ) (pmin : ℕ) :
    (choose_main_rebar_half_half_same_phi Ar smax smin pmin).straight.phi =
      (choose_main_rebar_half_half_same_phi Ar smax smin pmin).pilye.phi :=
  congrArg BarChoice.phi (choose_main_st_eq_py Ar smax smin pmin)

-- ============================================================
-- Claim C6: piecewise interpolation clamping
-- ============================================================

/-- The default last element of a cons list is a member of it. -/
lemma getLastD_mem_cons (l : List (ℚ × ℚ)) (p : ℚ × ℚ) :
    l.getLastD p ∈ p :: l := by
  induction l generalizing p with
  | nil => simp
  | cons c rest ih =>
    rw [List.getLastD_cons]
    exact List.mem_cons_of_mem p (ih c)

/-- In a key-ascending list, every key is at most the last key. -/
lemma le_getLastD_key (p : ℚ × ℚ) (l : List (ℚ × ℚ))
    (hs : (p :: l).Pairwise (fun a b => a.1 < b.1)) :
    ∀ q ∈ p :: l, q.1 ≤ (l.getLastD p).1 := by
  induction l generalizing p with
  | nil =>
    intro q hq
    simp at hq
    subst hq
    simp
  | cons c rest ih =>
    intro q hq
    obtain ⟨hphead, htail⟩ := List.pairwise_cons.mp hs
    rw [List.getLastD_cons]
    rcases List.mem_cons.mp hq with rfl | hq'
    · have hc := ih c htail c (List.mem_cons_self _ _)
      have hpc := hphead c (List.mem_cons_self _ _)
      linarith
    · exact ih c htail q hq'

/-- Strictly ascending keys are injective on the list members. -/
lemma pairwise_key_inj (L : List (ℚ × ℚ))
    (hs : L.Pairwise (fun a b => a.1 < b.1)) :
    ∀ a ∈ L, ∀ b ∈ L, a.1 = b.1 → a = b := by
  induction L with
  | nil => intro a ha; cases ha
  | cons c rest ih =>
    intro a ha b hb heq
    obtain ⟨hhead, htail⟩ := List.pairwise_cons.mp hs
    rcases List.mem_cons.mp ha with rfl | ha' <;>
      rcases List.mem_cons.mp hb with rfl | hb'
    · rfl
    · exact absurd heq (ne_of_lt (hhead b hb'))
    · exact absurd heq.symm (ne_of_lt (hhead a ha'))
    · exact ih htail a ha' b hb' heq

/-- The bracket scan reproduces every tabulated node of the tail list. -/
lemma interpScan_node (p : ℚ × ℚ) (l : List (ℚ × ℚ))
    (hs : (p :: l).Pairwise (fun a b => a.1 < b.1)) :
    ∀ q ∈ l, interpScan p l q.1 = q.2 := by
  induction l generalizing p with
  | nil => intro q hq; cases hq
  | cons c rest ih =>
    intro q hq
    obtain ⟨hphead, htail⟩ := List.pairwise_cons.mp hs
    rcases List.mem_cons.mp hq with rfl | hq'
    · simp only [interpScan]
      rw [if_pos le_rfl]
      have hpc : p.1 < q.1 := hphead q (List.mem_cons_self _ _)
      rw [div_self (by intro h0; rw [sub_eq_zero] at h0; exact absurd h0.symm (ne_of_lt hpc))]
      unfold lerp
      ring
    · simp only [interpScan]
      obtain ⟨hchead, hrtail⟩ := List.pairwise_cons.mp htail
      have hlt : c.1 < q.1 := hchead q hq'
      rw [if_neg (by linarith)]
      exact ih c htail q hq'

/-- C6: for a key-ascending breakpoint table, interp_piecewise reproduces
every tabulated value exactly at its breakpoint, returns the first value
for every input at or below the smallest breakpoint, and returns the last
value for every input at or above the largest breakpoint (flat clamping,
no extrapolation). -/
theorem interp_piecewise_clamp_and_nodes (p : ℚ × ℚ) (l : List (ℚ × ℚ))
    (hs : (p :: l).Pairwise (fun a b => a.1 < b.1)) :
    (∀ q ∈ p :: l, interp_piecewise (p :: l) q.1 = q.2) ∧
    (∀ x, x ≤ p.1 → interp_piecewise (p :: l) x = p.2) ∧
    (∀ x, (l.getLastD p).1 ≤ x → interp_piecewise (p :: l) x = (l.getLastD p).2) := by
  have part2 : ∀ x, x ≤ p.1 → interp_piecewise (p :: l) x = p.2 := by
    intro x hx
    simp only [interp_piecewise]
    rw [if_pos hx]
  have part3 : ∀ x, (l.getLastD p).1 ≤ x →
      interp_piecewise (p :: l) x = (l.getLastD p).2 := by
    intro x hx
    simp only [interp_piecewise]
    by_cases hx1 : x ≤ p.1
    · rw [if_pos hx1]
      have hple : p.1 ≤ (l.getLastD p).1 :=
        le_getLastD_key p l hs p (List.mem_cons_self _ _)
      have hkeys : p.1 = (l.getLastD p).1 := le_antisymm hple (by linarith)
      have := pairwise_key_inj (p :: l) hs p (List.mem_cons_self _ _)
        (l.getLastD p) (getLastD_mem_cons l p) hkeys
      rw [← this]
    · rw [if_neg hx1, if_pos hx]
  refine ⟨?_, part2, part3⟩
  intro q hq
  rcases List.mem_cons.mp hq with rfl | hq'
  · exact part2 q.1 le_rfl
  · simp only [interp_piecewise]
    have hpq : p.1 < q.1 :=
      (List.pairwise_cons.mp hs).1 q hq'
    rw [if_neg (not_le.mpr hpq)]
    by_cases hlast : (l.getLastD p).1 ≤ q.1
    · rw [if_pos hlast]
      have hle : q.1 ≤ (l.getLastD p).1 :=
        le_getLastD_key p l hs q (List.mem_cons_of_mem _ hq')
      have hkeys : (l.getLastD p).1 = q.1 := le_antisymm hlast hle
      have := pairwise_key_inj (p :: l) hs (l.getLastD p) (getLastD_mem_cons l p)
        q (List.mem_cons_of_mem _ hq') hkeys
      rw [this]
    · rw [if_neg hlast]
      exact interpScan_node p l hs q hq'

/-- C6 witness: on the two-point table (1,10),(2,20) the hypotheses hold
and the tabulated value at breakpoint 2 is reproduced. -/
theorem interp_piecewise_clamp_and_nodes_witness :
    ([((1:ℚ), (10:ℚ)), (2, 20)].Pairwise (fun a b => a.1 < b.1)) ∧
    interp_piecewise [((1:ℚ), (10:ℚ)), (2, 20)] 2 = 20 := by
  have hs : ([((1:ℚ), (10:ℚ)), (2, 20)].Pairwise (fun a b => a.1 < b.1)) := by
    norm_num [List.pairwise_cons]
  refine ⟨hs, ?_⟩
  have h := (interp_piecewise_clamp_and_nodes (1, 10) [(2, 20)] hs).1
    (2, 20) (by simp)
  simpa using h

-- ============================================================
-- Claim C8: area grid monotonicity
-- ============================================================

/-- Closed form of as_cm2_per_m for a nonzero spacing. -/
lemma as_cm2_per_m_eq (phi s : ℚ) (hs : s ≠ 0) :
    as_cm2_per_m phi s = piF * phi ^ 2 / (4 * s) := by
  unfold as_cm2_per_m
  field_simp
  ring

/-- All modelled catalog spacings are positive. -/
lemma S_GRID_pos : ∀ s ∈ S_GRID, (0:ℚ) < s := by
  intro s hs
  fin_cases hs <;> norm_num

/-- All modelled catalog diameters are positive. -/
lemma PHI_GRID_pos : ∀ p ∈ PHI_GRID, 0 < p := by decide

/-- The provided area is strictly decreasing in the spacing. -/
lemma as_anti_spacing (phi s1 s2 : ℚ) (hphi : 0 < phi) (h1 : 0 < s1)
    (h12 : s1 < s2) : as_cm2_per_m phi s2 < as_cm2_per_m phi s1 := by
  have hpi : (0:ℚ) < piF := by norm_num [piF]
  rw [as_cm2_per_m_eq _ _ (by linarith : s2 ≠ 0), as_cm2_per_m_eq _ _ (ne_of_gt h1)]
  exact div_lt_div_of_pos_left (by positivity) (by linarith) (by linarith)

/-- The provided area is strictly increasing in the diameter. -/
lemma as_mono_phi (p1 p2 s : ℚ) (hp1 : 0 ≤ p1) (h12 : p1 < p2) (hs : 0 < s) :
    as_cm2_per_m p1 s < as_cm2_per_m p2 s := by
  have hpi : (0:ℚ) < piF := by norm_num [piF]
  rw [as_cm2_per_m_eq _ _ (ne_of_gt hs), as_cm2_per_m_eq _ _ (ne_of_gt hs)]
  gcongr

/-- C8: over the catalog, the provided area per unit width is strictly
decreasing in spacing (at fixed diameter) and strictly increasing in
diameter (at fixed spacing). -/
theorem as_grid_monotone :
    (∀ phi ∈ PHI_GRID, ∀ s1 ∈ S_GRID, ∀ s2 ∈ S_GRID, s1 < s2 →
      as_cm2_per_m (phi : ℚ) s2 < as_cm2_per_m (phi : ℚ) s1) ∧
    (∀ s ∈ S_GRID, ∀ p1 ∈ PHI_GRID, ∀ p2 ∈ PHI_GRID, p1 < p2 →
      as_cm2_per_m (p1 : ℚ) s < as_cm2_per_m (p2 : ℚ) s) := by
  constructor
  · intro phi hphi s1 hs1 s2 hs2 h12
    exact as_anti_spacing _ _ _
      (by exact_mod_cast PHI_GRID_pos phi hphi) (S_GRID_pos s1 hs1) h12
  · intro s hs p1 hp1 p2 hp2 h12
    exact as_mono_phi _ _ _ (by positivity) (by exact_mod_cast h12) (S_GRID_pos s hs)

/-- C8 witness: concrete catalog instances of both monotonicity
directions. -/
theorem as_grid_monotone_witness :
    (10 ∈ PHI_GRID ∧ (10:ℚ) ∈ S_GRID ∧ (20:ℚ) ∈ S_GRID ∧ (10:ℚ) < 20 ∧
      as_cm2_per_m (10:ℚ) 20 < as_cm2_per_m (10:ℚ) 10) ∧
    ((15:ℚ) ∈ S_GRID ∧ 8 ∈ PHI_GRID ∧ 12 ∈ PHI_GRID ∧ 8 < 12 ∧
      as_cm2_per_m ((8:ℕ) : ℚ) 15 < as_cm2_per_m ((12:ℕ) : ℚ) 15) := by
  have h1 : (10:ℚ) ∈ S_GRID := by norm_num [S_GRID]
  have h2 : (20:ℚ) ∈ S_GRID := by norm_num [S_GRID]
  have h3 : (15:ℚ) ∈ S_GRID := by norm_num [S_GRID]
  have hp10 : 10 ∈ PHI_GRID := by decide
  have hp8 : 8 ∈ PHI_GRID := by decide
  have hp12 : 12 ∈ PHI_GRID := by decide
  refine ⟨⟨hp10, h1, h2, by norm_num, ?_⟩, ⟨h3, hp8, hp12, by norm_num, ?_⟩⟩
  · have h := as_grid_monotone.1 10 hp10 10 h1 20 h2 (by norm_num)
    simpa using h
  · exact as_grid_monotone.2 15 h3 8 hp8 12 hp12 (by norm_num)

-- ============================================================
-- Claim C3: design-chart lookup monotonicity
-- ============================================================

/-- On a descending bracket (value k1 at aHi, k2 at aLo, aLo < aHi) the
interpolated value is at least k1 for inputs at or below aHi. -/
lemma lerp_desc_lb (k1 k2 aHi aLo X : ℚ) (hk : k1 ≤ k2) (ha : aLo < aHi)
    (hX : X ≤ aHi) : k1 ≤ lerp k1 k2 ((X - aHi) / (aLo - aHi)) := by
  have he : (X - aHi) / (aLo - aHi) = (aHi - X) / (aHi - aLo) := by
    rw [div_eq_div_iff (sub_ne_zero.mpr (ne_of_lt ha)) (sub_ne_zero.mpr (ne_of_gt ha))]
    ring
  have ht : 0 ≤ (X - aHi) / (aLo - aHi) := by
    rw [he]
    apply div_nonneg <;> linarith
  unfold lerp
  nlinarith [mul_nonneg (sub_nonneg.mpr hk) ht]

/-- On a descending bracket the interpolated value is at most k2 for inputs
at or above aLo. -/
lemma lerp_desc_ub (k1 k2 aHi aLo X : ℚ) (hk : k1 ≤ k2) (ha : aLo < aHi)
    (hX : aLo ≤ X) : lerp k1 k2 ((X - aHi) / (aLo - aHi)) ≤ k2 := by
  have he : (X - aHi) / (aLo - aHi) = (aHi - X) / (aHi - aLo) := by
    rw [div_eq_div_iff (sub_ne_zero.mpr (ne_of_lt ha)) (sub_ne_zero.mpr (ne_of_gt ha))]
    ring
  have ht : (X - aHi) / (aLo - aHi) ≤ 1 := by
    rw [he, div_le_one (by linarith)]
    linarith
  unfold lerp
  nlinarith [mul_le_mul_of_nonneg_left ht (sub_nonneg.mpr hk)]

/-- On a descending bracket the interpolated value is antitone in the
input. -/
lemma lerp_desc_anti (k1 k2 aHi aLo K Kp : ℚ) (hk : k1 ≤ k2) (ha : aLo < aHi)
    (hKK : K ≤ Kp) :
    lerp k1 k2 ((Kp - aHi) / (aLo - aHi)) ≤
      lerp k1 k2 ((K - aHi) / (aLo - aHi)) := by
  have ht : (Kp - aHi) / (aLo - aHi) ≤ (K - aHi) / (aLo - aHi) := by
    have he1 : (Kp - aHi) / (aLo - aHi) = (aHi - Kp) / (aHi - aLo) := by
      rw [div_eq_div_iff (sub_ne_zero.mpr (ne_of_lt ha)) (sub_ne_zero.mpr (ne_of_gt ha))]
      ring
    have he2 : (K - aHi) / (aLo - aHi) = (aHi - K) / (aHi - aLo) := by
      rw [div_eq_div_iff (sub_ne_zero.mpr (ne_of_lt ha)) (sub_ne_zero.mpr (ne_of_gt ha))]
      ring
    rw [he1, he2]
    have hinv : (0:ℚ) ≤ (aHi - aLo)⁻¹ :=
      le_of_lt (inv_pos.mpr (by linarith))
    have := mul_le_mul_of_nonneg_right (sub_le_sub_left hKK aHi) hinv
    simpa [div_eq_mul_inv] using this
  unfold lerp
  nlinarith [mul_le_mul_of_nonneg_left ht (sub_nonneg.mpr hk)]

/-- ksCore is bounded below by the first coefficient. -/
lemma ksCore_lb1 (a1 a2 a3 a4 k1 k2 k3 k4 : ℚ)
    (ha12 : a2 < a1) (ha23 : a3 < a2) (ha34 : a4 < a3)
    (hk12 : k1 ≤ k2) (hk23 : k2 ≤ k3) (hk34 : k3 ≤ k4) (X : ℚ) :
    k1 ≤ ksCore a1 a2 a3 a4 k1 k2 k3 k4 X := by
  unfold ksCore
  split_ifs with h1 h2 h3 h4
  · exact le_refl k1
  · linarith
  · exact lerp_desc_lb k1 k2 a1 a2 X hk12 ha12 (by linarith)
  · have := lerp_desc_lb k2 k3 a2 a3 X hk23 ha23 (by linarith)
    linarith
  · have := lerp_desc_lb k3 k4 a3 a4 X hk34 ha34 (by linarith)
    linarith

/-- ksCore is bounded above by the last coefficient. -/
lemma ksCore_ub4 (a1 a2 a3 a4 k1 k2 k3 k4 : ℚ)
    (ha12 : a2 < a1) (ha23 : a3 < a2) (ha34 : a4 < a3)
    (hk12 : k1 ≤ k2) (hk23 : k2 ≤ k3) (hk34 : k3 ≤ k4) (X : ℚ) :
    ksCore a1 a2 a3 a4 k1 k2 k3 k4 X ≤ k4 := by
  unfold ksCore
  split_ifs with h1 h2 h3 h4
  · linarith
  · exact le_refl k4
  · have := lerp_desc_ub k1 k2 a1 a2 X hk12 ha12 h3
    linarith
  · have := lerp_desc_ub k2 k3 a2 a3 X hk23 ha23 h4
    linarith
  · exact lerp_desc_ub k3 k4 a3 a4 X hk34 ha34 (by linarith)

/-- Below the second breakpoint value ksCore is at least the second
coefficient. -/
lemma ksCore_lb2 (a1 a2 a3 a4 k1 k2 k3 k4 : ℚ)
    (ha12 : a2 < a1) (ha23 : a3 < a2) (ha34 : a4 < a3)
    (hk12 : k1 ≤ k2) (hk23 : k2 ≤ k3) (hk34 : k3 ≤ k4) (X : ℚ)
    (hX : X < a2) : k2 ≤ ksCore a1 a2 a3 a4 k1 k2 k3 k4 X := by
  unfold ksCore
  split_ifs with h1 h2 h3 h4
  · linarith
  · linarith
  · linarith
  · exact lerp_desc_lb k2 k3 a2 a3 X hk23 ha23 (by linarith)
  · have := lerp_desc_lb k3 k4 a3 a4 X hk34 ha34 (by linarith)
    linarith

/-- Below the third breakpoint value ksCore is at least the third
coefficient. -/
lemma ksCore_lb3 (a1 a2 a3 a4 k1 k2 k3 k4 : ℚ)
    (ha12 : a2 < a1) (ha23 : a3 < a2) (ha34 : a4 < a3)
    (hk12 : k1 ≤ k2) (hk23 : k2 ≤ k3) (hk34 : k3 ≤ k4) (X : ℚ)
    (hX : X < a3) : k3 ≤ ksCore a1 a2 a3 a4 k1 k2 k3 k4 X := by
  unfold ksCore
  split_ifs with h1 h2 h3 h4
  · linarith
  · linarith
  · linarith
  · linarith
  · exact lerp_desc_lb k3 k4 a3 a4 X hk34 ha34 (by linarith)

/-- At or above the second breakpoint value ksCore is at most the second
coefficient. -/
lemma ksCore_ub2 (a1 a2 a3 a4 k1 k2 k3 k4 : ℚ)
    (ha12 : a2 < a1) (ha23 : a3 < a2) (ha34 : a4 < a3)
    (hk12 : k1 ≤ k2) (hk23 : k2 ≤ k3) (hk34 : k3 ≤ k4) (X : ℚ)
    (hX : a2 ≤ X) : ksCore a1 a2 a3 a4 k1 k2 k3 k4 X ≤ k2 := by
  unfold ksCore
  split_ifs with h1 h2
  · exact hk12
  · linarith
  · exact lerp_desc_ub k1 k2 a1 a2 X hk12 ha12 hX

/-- At or above the third breakpoint value ksCore is at most the third
coefficient. -/
lemma ksCore_ub3 (a1 a2 a3 a4 k1 k2 k3 k4 : ℚ)
    (ha12 : a2 < a1) (ha23 : a3 < a2) (ha34 : a4 < a3)
    (hk12 : k1 ≤ k2) (hk23 : k2 ≤ k3) (hk34 : k3 ≤ k4) (X : ℚ)
    (hX : a3 ≤ X) : ksCore a1 a2 a3 a4 k1 k2 k3 k4 X ≤ k3 := by
  unfold ksCore
  split_ifs with h1 h2 h3
  · linarith
  · linarith
  · have := lerp_desc_ub k1 k2 a1 a2 X hk12 ha12 h3
    linarith
  · exact lerp_desc_ub k2 k3 a2 a3 X hk23 ha23 hX

/-- ksCore is antitone in the utilization argument whenever the breakpoint
values descend and the coefficients ascend. -/
lemma ksCore_anti (a1 a2 a3 a4 k1 k2 k3 k4 : ℚ)
    (ha12 : a2 < a1) (ha23 : a3 < a2) (ha34 : a4 < a3)
    (hk12 : k1 ≤ k2) (hk23 : k2 ≤ k3) (hk34 : k3 ≤ k4)
    (K Kp : ℚ) (hKK : K ≤ Kp) :
    ksCore a1 a2 a3 a4 k1 k2 k3 k4 Kp ≤ ksCore a1 a2 a3 a4 k1 k2 k3 k4 K := by
  by_cases hp1 : a1 ≤ Kp
  · have e : ksCore a1 a2 a3 a4 k1 k2 k3 k4 Kp = k1 := by
      unfold ksCore
      rw [if_pos hp1]
    rw [e]
    exact ksCore_lb1 a1 a2 a3 a4 k1 k2 k3 k4 ha12 ha23 ha34 hk12 hk23 hk34 K
  by_cases hp2 : Kp ≤ a4
  · have eK : ksCore a1 a2 a3 a4 k1 k2 k3 k4 K = k4 := by
      unfold ksCore
      rw [if_neg (not_le.mpr (by linarith)), if_pos (by linarith)]
    have eKp : ksCore a1 a2 a3 a4 k1 k2 k3 k4 Kp = k4 := by
      unfold ksCore
      rw [if_neg hp1, if_pos hp2]
    rw [eK, eKp]
  by_cases hp3 : a2 ≤ Kp
  · have eKp : ksCore a1 a2 a3 a4 k1 k2 k3 k4 Kp =
        lerp k1 k2 ((Kp - a1) / (a2 - a1)) := by
      unfold ksCore
      rw [if_neg hp1, if_neg hp2, if_pos hp3]
    by_cases hK3 : a2 ≤ K
    · have eK : ksCore a1 a2 a3 a4 k1 k2 k3 k4 K =
          lerp k1 k2 ((K - a1) / (a2 - a1)) := by
        unfold ksCore
        rw [if_neg (not_le.mpr (by linarith)), if_neg (not_le.mpr (by linarith)),
          if_pos hK3]
      rw [eK, eKp]
      exact lerp_desc_anti k1 k2 a1 a2 K Kp hk12 ha12 hKK
    · have hlb := ksCore_lb2 a1 a2 a3 a4 k1 k2 k3 k4 ha12 ha23 ha34 hk12 hk23 hk34
        K (not_le.mp hK3)
      have hub := ksCore_ub2 a1 a2 a3 a4 k1 k2 k3 k4 ha12 ha23 ha34 hk12 hk23 hk34
        Kp hp3
      linarith
  by_cases hp4 : a3 ≤ Kp
  · have eKp : ksCore a1 a2 a3 a4 k1 k2 k3 k4 Kp =
        lerp k2 k3 ((Kp - a2) / (a3 - a2)) := by
      unfold ksCore
      rw [if_neg hp1, if_neg hp2, if_neg hp3, if_pos hp4]
    by_cases hK4 : a3 ≤ K
    · have eK : ksCore a1 a2 a3 a4 k1 k2 k3 k4 K =
          lerp k2 k3 ((K - a2) / (a3 - a2)) := by
        unfold ksCore
        rw [if_neg (not_le.mpr (by linarith)), if_neg (not_le.mpr (by linarith)),
          if_neg (not_le.mpr (by linarith)), if_pos hK4]
      rw [eK, eKp]
      exact lerp_desc_anti k2 k3 a2 a3 K Kp hk23 ha23 hKK
    · have hlb := ksCore_lb3 a1 a2 a3 a4 k1 k2 k3 k4 ha12 ha23 ha34 hk12 hk23 hk34
        K (not_le.mp hK4)
      have hub := ksCore_ub3 a1 a2 a3 a4 k1 k2 k3 k4 ha12 ha23 ha34 hk12 hk23 hk34
        Kp hp4
      linarith
  · have eKp : ksCore a1 a2 a3 a4 k1 k2 k3 k4 Kp =
        lerp k3 k4 ((Kp - a3) / (a4 - a3)) := by
      unfold ksCore
      rw [if_neg hp1, if_neg hp2, if_neg hp3, if_neg hp4]
    by_cases hK2 : K ≤ a4
    · have eK : ksCore a1 a2 a3 a4 k1 k2 k3 k4 K = k4 := by
        unfold ksCore
        rw [if_neg (not_le.mpr (by linarith)), if_pos hK2]
      rw [eK, eKp]
      exact lerp_desc_ub k3 k4 a3 a4 Kp hk34 ha34 (by linarith)
    · have eK : ksCore a1 a2 a3 a4 k1 k2 k3 k4 K =
          lerp k3 k4 ((K - a3) / (a4 - a3)) := by
        unfold ksCore
        rw [if_neg (not_le.mpr (by linarith)), if_neg hK2,
          if_neg (not_le.mpr (by linarith)), if_neg (not_le.mpr (by linarith))]
      rw [eK, eKp]
      exact lerp_desc_anti k3 k4 a3 a4 K Kp hk34 ha34 hKK

/-- Strict pointwise comparison of two interpolated values on the same
bracket with t between 0 and 1. -/
lemma lerp_lt_lerp (a b a1 b1 t : ℚ) (ha : a1 < a) (hb : b1 < b)
    (h0 : 0 ≤ t) (h1 : t ≤ 1) : lerp a1 b1 t < lerp a b t := by
  have hA : (0:ℚ) < a - a1 := by linarith
  have hB : (0:ℚ) < b - b1 := by linarith
  have hc : (0:ℚ) < min (a - a1) (b - b1) := lt_min hA hB
  have h1' : min (a - a1) (b - b1) * (1 - t) ≤ (a - a1) * (1 - t) :=
    mul_le_mul_of_nonneg_right (min_le_left _ _) (by linarith)
  have h2' : min (a - a1) (b - b1) * t ≤ (b - b1) * t :=
    mul_le_mul_of_nonneg_right (min_le_right _ _) h0
  unfold lerp
  nlinarith [h1', h2', hc]

/-- Rows whose grade columns are pointwise strictly ordered stay strictly
ordered after interpolation at any concrete grade. -/
lemma K_row_lt (rA rB : KRow)
    (h25 : rB.K25 < rA.K25) (h30 : rB.K30 < rA.K30) (h35 : rB.K35 < rA.K35)
    (h40 : rB.K40 < rA.K40) (h45 : rB.K45 < rA.K45) (h50 : rB.K50 < rA.K50)
    (fck : ℚ) :
    K_row_concrete_value rB fck < K_row_concrete_value rA fck := by
  unfold K_row_concrete_value
  split_ifs with hf1 hf2 hf3 hf4 hf5 hf6
  · exact h25
  · exact h50
  · exact lerp_lt_lerp _ _ _ _ _ h25 h30 (by apply div_nonneg <;> linarith)
      (by rw [div_le_one (by norm_num)]; linarith)
  · exact lerp_lt_lerp _ _ _ _ _ h30 h35 (by apply div_nonneg <;> linarith)
      (by rw [div_le_one (by norm_num)]; linarith)
  · exact lerp_lt_lerp _ _ _ _ _ h35 h40 (by apply div_nonneg <;> linarith)
      (by rw [div_le_one (by norm_num)]; linarith)
  · exact lerp_lt_lerp _ _ _ _ _ h40 h45 (by apply div_nonneg <;> linarith)
      (by rw [div_le_one (by norm_num)]; linarith)
  · exact lerp_lt_lerp _ _ _ _ _ h45 h50 (by apply div_nonneg <;> linarith)
      (by rw [div_le_one (by norm_num)]; linarith)

/-- Row 2's interpolated value lies strictly below row 1's at every
grade. -/
lemma kv21 (fck : ℚ) :
    K_row_concrete_value krow2 fck < K_row_concrete_value krow1 fck :=
  K_row_lt krow1 krow2 (by norm_num [krow1, krow2]) (by norm_num [krow1, krow2])
    (by norm_num [krow1, krow2]) (by norm_num [krow1, krow2])
    (by norm_num [krow1, krow2]) (by norm_num [krow1, krow2]) fck

/-- Row 3's interpolated value lies strictly below row 2's at every
grade. -/
lemma kv32 (fck : ℚ) :
    K_row_concrete_value krow3 fck < K_row_concrete_value krow2 fck :=
  K_row_lt krow2 krow3 (by norm_num [krow2, krow3]) (by norm_num [krow2, krow3])
    (by norm_num [krow2, krow3]) (by norm_num [krow2, krow3])
    (by norm_num [krow2, krow3]) (by norm_num [krow2, krow3]) fck

/-- Row 4's interpolated value lies strictly below row 3's at every
grade. -/
lemma kv43 (fck : ℚ) :
    K_row_concrete_value krow4 fck < K_row_concrete_value krow3 fck :=
  K_row_lt krow3 krow4 (by norm_num [krow3, krow4]) (by norm_num [krow3, krow4])
    (by norm_num [krow3, krow4]) (by norm_num [krow3, krow4])
    (by norm_num [krow3, krow4]) (by norm_num [krow3, krow4]) fck

/-- The selected coefficient column ascends from row 1 to row 2. -/
lemma ksSel_12 (grp : String) : ksSel krow1 grp ≤ ksSel krow2 grp := by
  unfold ksSel
  split_ifs <;> norm_num [krow1, krow2]

/-- The selected coefficient column ascends from row 2 to row 3. -/
lemma ksSel_23 (grp : String) : ksSel krow2 grp ≤ ksSel krow3 grp := by
  unfold ksSel
  split_ifs <;> norm_num [krow2, krow3]

/-- The selected coefficient column ascends from row 3 to row 4. -/
lemma ksSel_34 (grp : String) : ksSel krow3 grp ≤ ksSel krow4 grp := by
  unfold ksSel
  split_ifs <;> norm_num [krow3, krow4]

/-- C3 counterexample: at fixed grade C30 and steel S420, increasing the
utilization input from 400 to 800 strictly DECREASES the returned
reinforcement coefficient. -/
theorem ks_lookup_monotonic_counterexample :
    (400:ℚ) < 800 ∧
    ks_from_Kcalc 800 30 "S420" < ks_from_Kcalc 400 30 "S420" := by
  refine ⟨by norm_num, ?_⟩
  have hg : steel_group "S420" = "S420" := by
    rw [steel_group, if_neg (by decide)]
  norm_num [ks_from_Kcalc, hg, ksCore, K_row_concrete_value, lerp, ksSel,
    krow1, krow2, krow3, krow4]

/-- C3 amended: for every fixed concrete grade and steel group, the
design-chart lookup is ANTITONE in the utilization input: increasing the
utilization value never increases the returned reinforcement coefficient
(the chart has descending utilization with ascending coefficients, so the
coefficient rises as the utilization input falls). -/
theorem ks_from_Kcalc_antitone (K1 K2 fck : ℚ) (steel : String)
    (h : K1 ≤ K2) :
    ks_from_Kcalc K2 fck steel ≤ ks_from_Kcalc K1 fck steel := by
  simp only [ks_from_Kcalc]
  exact ksCore_anti _ _ _ _ _ _ _ _ (kv21 fck) (kv32 fck) (kv43 fck)
    (ksSel_12 _) (ksSel_23 _) (ksSel_34 _) K1 K2 h

/-- C3 amended, witness: 400 ≤ 800 and the lookup at 800 is at most the
lookup at 400. -/
theorem ks_from_Kcalc_antitone_witness :
    (400:ℚ) ≤ 800 ∧
    ks_from_Kcalc 800 30 "S420" ≤ ks_from_Kcalc 400 30 "S420" :=
  ⟨by norm_num, ks_from_Kcalc_antitone 400 800 30 "S420" (by norm_num)⟩

-- ============================================================
-- Claim C2: single-layer bar selection
-- ============================================================

/-- Every choice produced by the spacing loop satisfies the acceptance
test (provided area within the 1e-12 cm² tolerance of the requirement)
and carries the searched diameter, provided the accumulator does. -/
lemma best_spacing_loop_sound (rc sm sx : ℚ) (phi : ℕ) :
    ∀ (l : List ℚ) (acc : Option BarChoice),
      (∀ b, acc = some b → rc ≤ b.As_prov_cm2_per_m + 1/10^12 ∧ b.phi = phi) →
      ∀ c, best_spacing_loop rc sm sx phi l acc = some c →
        rc ≤ c.As_prov_cm2_per_m + 1/10^12 ∧ c.phi = phi := by
  intro l
  induction l with
  | nil =>
    intro acc hacc c hc
    simp only [best_spacing_loop] at hc
    exact hacc c hc
  | cons s rest ih =>
    intro acc hacc c hc
    simp only [best_spacing_loop] at hc
    split at hc
    · exact ih acc hacc c hc
    · split at hc
      case _ hbound htol =>
        exact ih acc hacc c hc
      case _ hbound htol =>
        split at hc
        · refine ih _ ?_ c hc
          intro b hb
          cases hb
          exact ⟨by simpa using not_lt.mp htol, rfl⟩
        case _ b =>
          split at hc
          · refine ih _ ?_ c hc
            intro b' hb'
            cases hb'
            exact ⟨by simpa using not_lt.mp htol, rfl⟩
          · refine ih _ ?_ c hc
            intro b' hb'
            cases hb'
            exact hacc b rfl

/-- The spacing loop never drops a some-accumulator. -/
lemma best_spacing_loop_acc_isSome (rc sm sx : ℚ) (phi : ℕ) :
    ∀ (l : List ℚ) (b : BarChoice),
      (best_spacing_loop rc sm sx phi l (some b)).isSome := by
  intro l
  induction l with
  | nil => intro b; simp [best_spacing_loop]
  | cons s rest ih =>
    intro b
    simp only [best_spacing_loop]
    split
    · exact ih b
    · split
      · exact ih b
      · split
        · exact ih _
        · exact ih b

/-- The spacing loop returns a choice whenever some spacing in the list is
within bounds and passes the tolerance-adjusted area test. -/
lemma best_spacing_loop_isSome (rc sm sx : ℚ) (phi : ℕ) :
    ∀ (l : List ℚ) (acc : Option BarChoice) (s : ℚ), s ∈ l →
      sm ≤ s → s ≤ sx → rc ≤ as_cm2_per_m (phi : ℚ) s + 1/10^12 →
      (best_spacing_loop rc sm sx phi l acc).isSome := by
  intro l
  induction l with
  | nil => intro acc s hs; cases hs
  | cons hd rest ih =>
    intro acc s hs h1 h2 h3
    rcases List.mem_cons.mp hs with rfl | hs'
    · cases acc with
      | none =>
        simp only [best_spacing_loop]
        rw [if_neg (by push_neg; exact ⟨h1, h2⟩), if_neg (not_lt.mpr h3)]
        exact best_spacing_loop_acc_isSome rc sm sx phi rest _
      | some b =>
        simp only [best_spacing_loop]
        rw [if_neg (by push_neg; exact ⟨h1, h2⟩), if_neg (not_lt.mpr h3)]
        split
        · exact best_spacing_loop_acc_isSome rc sm sx phi rest _
        · exact best_spacing_loop_acc_isSome rc sm sx phi rest _
    · cases acc with
      | none =>
        simp only [best_spacing_loop]
        split
        · exact ih none s hs' h1 h2 h3
        · split
          · exact ih none s hs' h1 h2 h3
          · exact best_spacing_loop_acc_isSome rc sm sx phi rest _
      | some b =>
        simp only [best_spacing_loop]
        split
        · exact ih (some b) s hs' h1 h2 h3
        · split
          · exact ih (some b) s hs' h1 h2 h3
          · split
            · exact best_spacing_loop_acc_isSome rc sm sx phi rest _
            · exact best_spacing_loop_acc_isSome rc sm sx phi rest _

/-- When every in-bound spacing fails the tolerance-adjusted area test, the
spacing loop returns its accumulator unchanged. -/
lemma best_spacing_loop_none (rc sm sx : ℚ) (phi : ℕ) :
    ∀ (l : List ℚ) (acc : Option BarChoice),
      (∀ s ∈ l, sm ≤ s → s ≤ sx →
        as_cm2_per_m (phi : ℚ) s + 1/10^12 < rc) →
      best_spacing_loop rc sm sx phi l acc = acc := by
  intro l
  induction l with
  | nil => intro acc hfail; simp [best_spacing_loop]
  | cons hd rest ih =>
    intro acc hfail
    simp only [best_spacing_loop]
    split
    case _ h =>
      exact ih acc (fun s hs => hfail s (List.mem_cons_of_mem _ hs))
    case _ h =>
      push_neg at h
      rw [if_pos (by
        simpa using hfail hd (List.mem_cons_self _ _) h.1 h.2)]
      exact ih acc (fun s hs => hfail s (List.mem_cons_of_mem _ hs))

/-- Soundness of best_spacing_for_phi: any returned choice meets the
tolerance-adjusted requirement and carries the searched diameter. -/
lemma best_spacing_for_phi_sound (req : ℚ) (phi : ℕ) (sx sm : ℚ)
    (hreq : 1/10^12 < req) (c : BarChoice)
    (hc : best_spacing_for_phi req phi sx sm = some c) :
    req / 100 ≤ c.As_prov_cm2_per_m + 1/10^12 ∧ c.phi = phi := by
  unfold best_spacing_for_phi at hc
  rw [if_neg (not_le.mpr hreq)] at hc
  split at hc
  · exact absurd hc (by simp)
  · exact best_spacing_loop_sound _ _ _ _ S_GRID none (by intro b hb; cases hb) c hc

/-- Completeness of best_spacing_for_phi: a catalog diameter with some
in-bound spacing passing the tolerance test yields a choice. -/
lemma best_spacing_for_phi_isSome (req : ℚ) (phi : ℕ) (sx sm : ℚ)
    (hreq : 1/10^12 < req) (hphi : phi ∈ PHI_GRID) (s : ℚ) (hs : s ∈ S_GRID)
    (h1 : sm / 10 ≤ s) (h2 : s ≤ sx / 10)
    (h3 : req / 100 ≤ as_cm2_per_m (phi : ℚ) s + 1/10^12) :
    (best_spacing_for_phi req phi sx sm).isSome := by
  unfold best_spacing_for_phi
  rw [if_neg (not_le.mpr hreq), if_neg (not_not_intro hphi)]
  exact best_spacing_loop_isSome _ _ _ _ S_GRID none s hs h1 h2 h3

/-- Emptiness of best_spacing_for_phi: when every in-bound catalog spacing
fails the tolerance test, no choice is returned. -/
lemma best_spacing_for_phi_none (req : ℚ) (phi : ℕ) (sx sm : ℚ)
    (hreq : 1/10^12 < req)
    (hfail : ∀ s ∈ S_GRID, sm / 10 ≤ s → s ≤ sx / 10 →
      as_cm2_per_m (phi : ℚ) s + 1/10^12 < req / 100) :
    best_spacing_for_phi req phi sx sm = none := by
  unfold best_spacing_for_phi
  rw [if_neg (not_le.mpr hreq)]
  split
  · rfl
  · exact best_spacing_loop_none _ _ _ _ S_GRID none hfail

/-- Every choice produced by the diameter loop meets the
tolerance-adjusted requirement and uses a diameter of the searched list,
provided the accumulator does. -/
lemma choose_single_layer_loop_sound (req sx sm : ℚ) (pmin : ℕ)
    (hreq : 1/10^12 < req) :
    ∀ (l : List ℕ) (acc : Option BarChoice),
      (∀ b, acc = some b → req / 100 ≤ b.As_prov_cm2_per_m + 1/10^12 ∧ b.phi ∈ PHI_GRID) →
      ∀ c, choose_single_layer_loop req sx sm pmin l acc = some c →
        req / 100 ≤ c.As_prov_cm2_per_m + 1/10^12 ∧ c.phi ∈ PHI_GRID := by
  intro l
  induction l with
  | nil =>
    intro acc hacc c hc
    simp only [choose_single_layer_loop] at hc
    exact hacc c hc
  | cons phi rest ih =>
    intro acc hacc c hc
    simp only [choose_single_layer_loop] at hc
    split at hc
    · exact ih acc hacc c hc
    · split at hc
      case _ hno => exact ih acc hacc c hc
      case _ cand hcand =>
        have hphi : phi ∈ PHI_GRID := by
          by_contra hnot
          rw [best_spacing_for_phi, if_neg (not_le.mpr hreq), if_pos hnot] at hcand
          cases hcand
        have hQ := best_spacing_for_phi_sound req phi sx sm hreq cand hcand
        split at hc
        · refine ih _ ?_ c hc
          intro b hb
          cases hb
          exact ⟨hQ.1, hQ.2 ▸ hphi⟩
        case _ b =>
          split at hc
          · refine ih _ ?_ c hc
            intro b' hb'
            cases hb'
            exact ⟨hQ.1, hQ.2 ▸ hphi⟩
          · refine ih _ ?_ c hc
            intro b' hb'
            cases hb'
            exact hacc b rfl

/-- The diameter loop never drops a some-accumulator. -/
lemma choose_single_layer_loop_acc_isSome (req sx sm : ℚ) (pmin : ℕ) :
    ∀ (l : List ℕ) (b : BarChoice),
      (choose_single_layer_loop req sx sm pmin l (some b)).isSome := by
  intro l
  induction l with
  | nil => intro b; simp [choose_single_layer_loop]
  | cons phi rest ih =>
    intro b
    simp only [choose_single_layer_loop]
    split
    · exact ih b
    · split
      · exact ih b
      · split
        · exact ih _
        · exact ih b

/-- The diameter loop returns a choice whenever some listed diameter at or
above the minimum is feasible. -/
lemma choose_single_layer_loop_isSome (req sx sm : ℚ) (pmin : ℕ) :
    ∀ (l : List ℕ) (acc : Option BarChoice) (phi : ℕ), phi ∈ l →
      pmin ≤ phi → (best_spacing_for_phi req phi sx sm).isSome →
      (choose_single_layer_loop req sx sm pmin l acc).isSome := by
  intro l
  induction l with
  | nil => intro acc phi hphi; cases hphi
  | cons hd rest ih =>
    intro acc phi hphi hge hsome
    rcases List.mem_cons.mp hphi with rfl | hphi'
    · obtain ⟨cand, hcand⟩ := Option.isSome_iff_exists.mp hsome
      cases acc with
      | none =>
        simp only [choose_single_layer_loop]
        rw [if_neg (not_lt.mpr hge)]
        simp only [hcand]
        exact choose_single_layer_loop_acc_isSome req sx sm pmin rest _
      | some b =>
        simp only [choose_single_layer_loop]
        rw [if_neg (not_lt.mpr hge)]
        simp only [hcand]
        split
        · exact choose_single_layer_loop_acc_isSome req sx sm pmin rest _
        · exact choose_single_layer_loop_acc_isSome req sx sm pmin rest _
    · cases acc with
      | none =>
        simp only [choose_single_layer_loop]
        split
        · exact ih none phi hphi' hge hsome
        · split
          · exact ih none phi hphi' hge hsome
          · exact choose_single_layer_loop_acc_isSome req sx sm pmin rest _
      | some b =>
        simp only [choose_single_layer_loop]
        split
        · exact ih (some b) phi hphi' hge hsome
        · split
          · exact ih (some b) phi hphi' hge hsome
          · split
            · exact choose_single_layer_loop_acc_isSome req sx sm pmin rest _
            · exact choose_single_layer_loop_acc_isSome req sx sm pmin rest _

/-- When every listed diameter at or above the minimum is infeasible, the
diameter loop returns its accumulator unchanged. -/
lemma choose_single_layer_loop_none (req sx sm : ℚ) (pmin : ℕ) :
    ∀ (l : List ℕ) (acc : Option BarChoice),
      (∀ phi ∈ l, pmin ≤ phi → best_spacing_for_phi req phi sx sm = none) →
      choose_single_layer_loop req sx sm pmin l acc = acc := by
  intro l
  induction l with
  | nil => intro acc hfail; simp [choose_single_layer_loop]
  | cons hd rest ih =>
    intro acc hfail
    simp only [choose_single_layer_loop]
    split
    case _ h =>
      exact ih acc (fun p hp => hfail p (List.mem_cons_of_mem _ hp))
    case _ h =>
      rw [hfail hd (List.mem_cons_self _ _) (not_lt.mp h)]
      exact ih acc (fun p hp => hfail p (List.mem_cons_of_mem _ hp))

/-- C2 amended: for a required area above the zero tolerance,
choose_single_layer_rebar returns a non-sentinel choice whose provided
area is within the search's 1e-12 cm²/m acceptance tolerance of the
requirement whenever some catalog pair (diameter ≥ minimum, spacing within
bounds) passes the tolerance-adjusted area test — in particular whenever
some pair provides at least the required area — and returns the
zero-diameter sentinel (not an exception) when no pair passes the test. -/
theorem choose_single_layer_spec (req sx sm : ℚ) (pmin : ℕ)
    (hreq : 1/10^12 < req) :
    (∀ phi ∈ PHI_GRID, ∀ s ∈ S_GRID, pmin ≤ phi → sm / 10 ≤ s → s ≤ sx / 10 →
        req / 100 ≤ as_cm2_per_m (phi : ℚ) s + 1/10^12 →
        ((choose_single_layer_rebar req sx sm pmin).phi ≠ 0 ∧
          req / 100 ≤
            (choose_single_layer_rebar req sx sm pmin).As_prov_cm2_per_m + 1/10^12)) ∧
    ((∀ phi ∈ PHI_GRID, ∀ s ∈ S_GRID, pmin ≤ phi → sm / 10 ≤ s → s ≤ sx / 10 →
        as_cm2_per_m (phi : ℚ) s + 1/10^12 < req / 100) →
      choose_single_layer_rebar req sx sm pmin = ⟨0, 0, 0, 0, 0⟩) := by
  constructor
  · intro phi hphi s hs hge h1 h2 h3
    have hsome := choose_single_layer_loop_isSome req sx sm pmin PHI_GRID none phi hphi hge
      (best_spacing_for_phi_isSome req phi sx sm hreq hphi s hs h1 h2 h3)
    obtain ⟨c, hc⟩ := Option.isSome_iff_exists.mp hsome
    have hQ := choose_single_layer_loop_sound req sx sm pmin hreq PHI_GRID none
      (by intro b hb; cases hb) c hc
    have heq : choose_single_layer_rebar req sx sm pmin = c := by
      unfold choose_single_layer_rebar
      rw [if_neg (not_le.mpr hreq)]
      simp only [hc]
    rw [heq]
    refine ⟨?_, hQ.1⟩
    have := PHI_GRID_pos c.phi hQ.2
    omega
  · intro hfail
    unfold choose_single_layer_rebar
    rw [if_neg (not_le.mpr hreq)]
    rw [choose_single_layer_loop_none req sx sm pmin PHI_GRID none
      (fun phi hphi hge => best_spacing_for_phi_none req phi sx sm hreq
        (fun s hs h1 h2 => hfail phi hphi s hs hge h1 h2))]

/-- C2 amended, witness: required area 500 mm²/m, spacing bounds
[70, 200] mm, minimum diameter 8; the pair (8 mm, 10 cm) is feasible and
the returned non-sentinel choice meets the tolerance-adjusted
requirement. -/
theorem choose_single_layer_spec_witness :
    1/10^12 < (500:ℚ) ∧ 8 ∈ PHI_GRID ∧ (10:ℚ) ∈ S_GRID ∧ 8 ≤ 8 ∧
    (70:ℚ) / 10 ≤ 10 ∧ (10:ℚ) ≤ 200 / 10 ∧
    (500:ℚ) / 100 ≤ as_cm2_per_m ((8:ℕ) : ℚ) 10 + 1/10^12 ∧
    ((choose_single_layer_rebar 500 200 70 8).phi ≠ 0 ∧
      (500:ℚ) / 100 ≤
        (choose_single_layer_rebar 500 200 70 8).As_prov_cm2_per_m + 1/10^12) := by
  have h8 : 8 ∈ PHI_GRID := by decide
  have h10 : (10:ℚ) ∈ S_GRID := by norm_num [S_GRID]
  have hpass : (500:ℚ) / 100 ≤ as_cm2_per_m ((8:ℕ) : ℚ) 10 + 1/10^12 := by
    norm_num [as_cm2_per_m, piF]
  refine ⟨by norm_num, h8, h10, le_refl 8, by norm_num, by norm_num, hpass, ?_⟩
  exact (choose_single_layer_spec 500 200 70 8 (by norm_num)).1 8 h8 10 h10
    (le_refl 8) (by norm_num) (by norm_num) hpass

set_option maxHeartbeats 4000000 in
/-- C2 counterexample: with spacing bounds forcing the single spacing
30 cm and minimum diameter 16, a required area a hair above the area
provided by (16 mm, 30 cm) is still accepted for diameter 16 under the
1e-12 cm² tolerance, so the returned ratio is strictly below 1.0 even
though the pair (20 mm, 30 cm) provides at least the required area (the
claim's feasibility premise holds). -/
theorem choose_single_layer_ratio_counterexample :
    1/10^12 < (100 * as_cm2_per_m 16 30 + 5/10^11 : ℚ) ∧
    20 ∈ PHI_GRID ∧ 16 ≤ 20 ∧ (30:ℚ) ∈ S_GRID ∧
    (300:ℚ) / 10 ≤ 30 ∧ (30:ℚ) ≤ 300 / 10 ∧
    (100 * as_cm2_per_m 16 30 + 5/10^11 : ℚ) / 100 ≤ as_cm2_per_m ((20:ℕ) : ℚ) 30 ∧
    (choose_single_layer_rebar (100 * as_cm2_per_m 16 30 + 5/10^11) 300 300 16).ratio < 1 := by
  refine ⟨by norm_num [as_cm2_per_m, piF], by decide, by norm_num,
    by norm_num [S_GRID], by norm_num, by norm_num,
    by norm_num [as_cm2_per_m, piF], ?_⟩
  norm_num [choose_single_layer_rebar, choose_single_layer_loop,
    best_spacing_for_phi, best_spacing_loop, as_cm2_per_m, piF, PHI_GRID, S_GRID]
